import Mathlib

/-!
Verification of the rmf memory-forensics core: the memory-image accessor,
the x86_64 virtual-to-physical address translator, and the plugin registry.

The definitions below are a shallow embedding of the Rust sources
(`src/arch/x86_64.rs`, `src/paging.rs`, `src/plugin/registry.rs`).
Machine integers are modelled as `Nat`; the one u64 addition that can
wrap (page-table root plus table-index offset) carries an explicit
`% 2 ^ 64`.  The memory-mapped buffer is a list of bytes.
-/

/-! ## arch/x86_64.rs -/

/-- The size of a standard page on x86_64 architecture. -/
def PAGE_SIZE : Nat := 4096

/-- Page Map Level 4 (PML4) entry: a raw 64-bit value. -/
structure PML4Entry where
  val : Nat

def PML4Entry.new (value : Nat) : PML4Entry := ⟨value⟩

def PML4Entry.is_present (e : PML4Entry) : Bool := e.val &&& 0x1 == 0x1

def PML4Entry.get_physical_address (e : PML4Entry) : Nat :=
  e.val &&& 0x000FFFFFFFFFF000

def PML4Entry.flags (e : PML4Entry) : Nat := e.val &&& 0xFFF

/-- Page Directory Pointer Table (PDPT) entry. -/
structure PDPTEntry where
  val : Nat

def PDPTEntry.new (value : Nat) : PDPTEntry := ⟨value⟩

def PDPTEntry.is_present (e : PDPTEntry) : Bool := e.val &&& 0x1 == 0x1

def PDPTEntry.is_page_size_1gb (e : PDPTEntry) : Bool := e.val &&& 0x80 == 0x80

def PDPTEntry.get_physical_address (e : PDPTEntry) : Nat :=
  e.val &&& 0x000FFFFFFFFFF000

def PDPTEntry.flags (e : PDPTEntry) : Nat := e.val &&& 0xFFF

/-- Page Directory (PD) entry. -/
structure PDEntry where
  val : Nat

def PDEntry.new (value : Nat) : PDEntry := ⟨value⟩

def PDEntry.is_present (e : PDEntry) : Bool := e.val &&& 0x1 == 0x1

def PDEntry.is_page_size_2mb (e : PDEntry) : Bool := e.val &&& 0x80 == 0x80

def PDEntry.get_physical_address (e : PDEntry) : Nat :=
  e.val &&& 0x000FFFFFFFFFF000

def PDEntry.flags (e : PDEntry) : Nat := e.val &&& 0xFFF

/-- Page Table (PT) entry. -/
structure PTEntry where
  val : Nat

def PTEntry.new (value : Nat) : PTEntry := ⟨value⟩

def PTEntry.is_present (e : PTEntry) : Bool := e.val &&& 0x1 == 0x1

def PTEntry.get_physical_address (e : PTEntry) : Nat :=
  e.val &&& 0x000FFFFFFFFFF000

def PTEntry.flags (e : PTEntry) : Nat := e.val &&& 0xFFF

/-- x86_64 virtual address structure. -/
structure VirtualAddress where
  val : Nat

def VirtualAddress.new (addr : Nat) : VirtualAddress := ⟨addr⟩

def VirtualAddress.addr (va : VirtualAddress) : Nat := va.val

/-- Extract PML4 index (bits 39-47). -/
def VirtualAddress.get_pml4_index (va : VirtualAddress) : Nat :=
  (va.val >>> 39) &&& 0x1FF

/-- Extract PDPT index (bits 30-38). -/
def VirtualAddress.get_pdpt_index (va : VirtualAddress) : Nat :=
  (va.val >>> 30) &&& 0x1FF

/-- Extract PD index (bits 21-29). -/
def VirtualAddress.get_pd_index (va : VirtualAddress) : Nat :=
  (va.val >>> 21) &&& 0x1FF

/-- Extract PT index (bits 12-20). -/
def VirtualAddress.get_pt_index (va : VirtualAddress) : Nat :=
  (va.val >>> 12) &&& 0x1FF

/-- Extract page offset (bits 0-11). -/
def VirtualAddress.get_page_offset (va : VirtualAddress) : Nat :=
  va.val &&& 0xFFF

/-- Extract 2MB page offset (bits 0-20). -/
def VirtualAddress.get_large_page_offset (va : VirtualAddress) : Nat :=
  va.val &&& 0x1FFFFF

/-- Extract 1GB page offset (bits 0-29). -/
def VirtualAddress.get_huge_page_offset (va : VirtualAddress) : Nat :=
  va.val &&& 0x3FFFFFFF

/-! ## paging.rs -/

/-- Different CPU architectures supported by the memory forensics tool. -/
inductive Architecture where
  | X86_64
deriving DecidableEq

/-- Different page table types for memory dumps. -/
inductive PageTableType where
  | Standard
  | FiveLevel
deriving DecidableEq

/-- Memory image information. -/
structure MemoryImageInfo where
  arch : Architecture
  page_table_type : PageTableType
  cr3 : Option Nat
  dtb : Option Nat
  size : Nat

/-- A memory image: the mapped byte buffer plus its metadata.  `data` is the
byte content of the memory-mapped dump file. -/
structure MemoryImage where
  data : List Nat
  info : MemoryImageInfo

def MemoryImage.new (data : List Nat) : MemoryImage :=
  ⟨data, ⟨Architecture.X86_64, PageTableType.Standard, none, none, data.length⟩⟩

def MemoryImage.size (img : MemoryImage) : Nat := img.info.size

/-- Set the CR3 register value for this memory image (also records it as DTB). -/
def MemoryImage.set_cr3 (img : MemoryImage) (cr3 : Nat) : MemoryImage :=
  ⟨img.data,
   ⟨img.info.arch, img.info.page_table_type, some cr3, some cr3, img.info.size⟩⟩

def MemoryImage.get_bytes (img : MemoryImage) (offset len : Nat) : Option (List Nat) :=
  if offset + len ≤ img.info.size then
    some ((img.data.drop offset).take len)
  else
    none

/-- Little-endian interpretation of a byte list (`u64::from_le_bytes` on 8 bytes). -/
def leBytesToNat : List Nat → Nat
  | [] => 0
  | b :: rest => b + 256 * leBytesToNat rest

/-- Read a u64 value from the memory image at the given offset. -/
def MemoryImage.read_u64 (img : MemoryImage) (offset : Nat) : Option Nat :=
  if offset + 8 ≤ img.info.size then
    some (leBytesToNat ((img.data.drop offset).take 8))
  else
    none

/-- Read a u32 value from the memory image. -/
def MemoryImage.read_u32 (img : MemoryImage) (offset : Nat) : Option Nat :=
  if offset + 4 ≤ img.info.size then
    some (leBytesToNat ((img.data.drop offset).take 4))
  else
    none

/-- Virtual to physical address translation for x86_64.  Mirrors
`MemoryImage::virt_to_phys`: the page-table-root addition is u64 arithmetic
and may wrap, hence the `% 2 ^ 64`; every later address is a masked
physical address (< 2 ^ 52) plus a small offset and cannot wrap. -/
def MemoryImage.virt_to_phys (img : MemoryImage) (virt_addr : Nat) : Option Nat :=
  match img.info.dtb with
  | none => none
  | some dtb =>
    let va := VirtualAddress.new virt_addr
    match img.read_u64 ((dtb + va.get_pml4_index * 8) % 2 ^ 64) with
    | none => none
    | some pml4e_val =>
      let pml4e := PML4Entry.new pml4e_val
      if pml4e.is_present then
        match img.read_u64 (pml4e.get_physical_address + va.get_pdpt_index * 8) with
        | none => none
        | some pdpte_val =>
          let pdpte := PDPTEntry.new pdpte_val
          if pdpte.is_present then
            if pdpte.is_page_size_1gb then
              some (pdpte.get_physical_address + va.get_huge_page_offset)
            else
              match img.read_u64 (pdpte.get_physical_address + va.get_pd_index * 8) with
              | none => none
              | some pde_val =>
                let pde := PDEntry.new pde_val
                if pde.is_present then
                  if pde.is_page_size_2mb then
                    some (pde.get_physical_address + va.get_large_page_offset)
                  else
                    match img.read_u64 (pde.get_physical_address + va.get_pt_index * 8) with
                    | none => none
                    | some pte_val =>
                      let pte := PTEntry.new pte_val
                      if pte.is_present then
                        some (pte.get_physical_address + va.get_page_offset)
                      else
                        none
                else
                  none
          else
            none
      else
        none

/-- Byte at an index of the image (the mmap is exactly `size` bytes long, so
every checked access stays inside the list). -/
def MemoryImage.byteAt (img : MemoryImage) (i : Nat) : Nat :=
  img.data.getD i 0

/-- The UTF-16 code units collected by the loop of `read_utf16_string`:
at step `i` the loop stops when `offset + 2*i + 1 ≥ size` or when the
little-endian code unit at `offset + 2*i` is zero. -/
def utf16Units (img : MemoryImage) (offset : Nat) : Nat → List Nat
  | 0 => []
  | k + 1 =>
    if offset + 1 ≥ img.info.size then
      []
    else
      let c := img.byteAt offset + 256 * img.byteAt (offset + 1)
      if c = 0 then [] else c :: utf16Units img (offset + 2) k

/-- UTF-16 decoding (`String::from_utf16`): basic-plane units become chars,
high surrogates must be followed by a low surrogate, and a lone surrogate
fails the whole decode. -/
def decodeUtf16 : List Nat → Option (List Char)
  | [] => some []
  | u :: rest =>
    if u < 0xD800 ∨ 0xDFFF < u then
      (decodeUtf16 rest).map (fun cs => Char.ofNat u :: cs)
    else if u < 0xDC00 then
      match rest with
      | [] => none
      | v :: rest2 =>
        if 0xDC00 ≤ v ∧ v ≤ 0xDFFF then
          (decodeUtf16 rest2).map
            (fun cs => Char.ofNat (0x10000 + (u - 0xD800) * 0x400 + (v - 0xDC00)) :: cs)
        else
          none
    else
      none

/-- Read a null-terminated UTF-16 (wide) string from the memory image. -/
def MemoryImage.read_utf16_string (img : MemoryImage) (offset max_len : Nat) :
    Option String :=
  if offset + 1 ≥ img.info.size then
    none
  else
    (decodeUtf16 (utf16Units img offset (max_len / 2))).map String.mk

/-! ## plugin/registry.rs -/

/-- Represents a finding from a memory forensics plugin. -/
structure Finding where
  plugin : String
  addr : Nat
  desc : String
  confidence : Nat
  details : List (String × String)

/-- A memory forensics plugin: the data carried by the `MemoryPlugin` trait
(the progress bar passed to `scan` is display glue and out of scope). -/
structure MemoryPlugin where
  name : String
  description : String
  get_version : String
  scan : MemoryImage → List Finding

/-- Registry of available plugins, modelled extensionally as an association
list with unique keys (the `HashMap<String, Box<dyn MemoryPlugin>>`). -/
def PluginRegistry := List (String × MemoryPlugin)

def PluginRegistry.new : PluginRegistry := []

/-- `register` inserts/replaces the entry keyed by the plugin's name
(`HashMap::insert`). -/
def PluginRegistry.register (r : PluginRegistry) (p : MemoryPlugin) : PluginRegistry :=
  (p.name, p) :: List.filter (fun kv => kv.1 != p.name) r

def PluginRegistry.get (r : PluginRegistry) (name : String) : Option MemoryPlugin :=
  (List.find? (fun kv => kv.1 == name) r).map (fun kv => kv.2)

def PluginRegistry.list_plugins (r : PluginRegistry) : List (String × String × String) :=
  List.map (fun kv => (kv.1, kv.2.description, kv.2.get_version)) r

/-! ## Bitwise helper lemmas -/

theorem and_mask_mod (v n : Nat) : v &&& (2 ^ n - 1) = v % 2 ^ n := by
  apply Nat.eq_of_testBit_eq
  intro i
  rw [Nat.testBit_and, Nat.testBit_mod_two_pow, Nat.testBit_two_pow_sub_one, Bool.and_comm]

theorem and_phys_mask (v : Nat) :
    v &&& 0x000FFFFFFFFFF000 = v / 2 ^ 12 % 2 ^ 40 * 2 ^ 12 := by
  have hm : (0x000FFFFFFFFFF000 : Nat) = (2 ^ 40 - 1) <<< 12 := by decide
  have hr : v / 2 ^ 12 % 2 ^ 40 * 2 ^ 12 = ((v >>> 12) % 2 ^ 40) <<< 12 := by
    rw [Nat.shiftLeft_eq, Nat.shiftRight_eq_div_pow]
  rw [hm, hr]
  apply Nat.eq_of_testBit_eq
  intro i
  rw [Nat.testBit_and, Nat.testBit_shiftLeft, Nat.testBit_shiftLeft,
      Nat.testBit_mod_two_pow, Nat.testBit_two_pow_sub_one, Nat.testBit_shiftRight]
  by_cases h12 : 12 ≤ i
  · have hi : 12 + (i - 12) = i := by omega
    rw [hi]
    simp [h12, Bool.and_comm, Bool.and_left_comm]
  · simp [h12]

theorem shiftRight_and_1FF (a s : Nat) : (a >>> s) &&& 0x1FF = a / 2 ^ s % 2 ^ 9 := by
  have h : (0x1FF : Nat) = 2 ^ 9 - 1 := by decide
  rw [h, and_mask_mod, Nat.shiftRight_eq_div_pow]

theorem and_FFF_mod (a : Nat) : a &&& 0xFFF = a % 2 ^ 12 := by
  have h : (0xFFF : Nat) = 2 ^ 12 - 1 := by decide
  rw [h, and_mask_mod]

theorem and_one_mod (v : Nat) : v &&& 1 = v % 2 := by
  rw [show (1 : Nat) = 2 ^ 1 - 1 by decide, and_mask_mod]
  norm_num

theorem is_present_iff_mod (v : Nat) : (v &&& 0x1 == 0x1) = true ↔ v % 2 = 1 := by
  simp only [beq_iff_eq, and_one_mod]

/-! ## Claims -/

/-- C2 (corrected, counterexample): the claimed concrete decomposition of the
virtual address 0x123456789000 into level indices 0x1/0x23/0x45/0x67 and page
offset 0x789 is false on the code: the actual bit fields of that address are
0x24/0xD1/0xB3/0x189/0x0. -/
theorem va_decomposition_counterexample :
    ¬ ((VirtualAddress.new 0x123456789000).get_pml4_index = 0x1 ∧
       (VirtualAddress.new 0x123456789000).get_pdpt_index = 0x23 ∧
       (VirtualAddress.new 0x123456789000).get_pd_index = 0x45 ∧
       (VirtualAddress.new 0x123456789000).get_pt_index = 0x67 ∧
       (VirtualAddress.new 0x123456789000).get_page_offset = 0x789) := by
  decide

/-- C2 (amended): virtual-address field extraction is a pure bit-decomposition
with fixed ranges — bits 39-47, 30-38, 21-29, 12-20 and 0-11 — and for the
virtual address 0x123456789000 those fields are 0x24, 0xD1, 0xB3, 0x189
and 0x0 respectively. -/
theorem va_decomposition_bit_ranges :
    (∀ a, (VirtualAddress.new a).get_pml4_index = a / 2 ^ 39 % 2 ^ 9 ∧
          (VirtualAddress.new a).get_pdpt_index = a / 2 ^ 30 % 2 ^ 9 ∧
          (VirtualAddress.new a).get_pd_index = a / 2 ^ 21 % 2 ^ 9 ∧
          (VirtualAddress.new a).get_pt_index = a / 2 ^ 12 % 2 ^ 9 ∧
          (VirtualAddress.new a).get_page_offset = a % 2 ^ 12) ∧
    (VirtualAddress.new 0x123456789000).get_pml4_index = 0x24 ∧
    (VirtualAddress.new 0x123456789000).get_pdpt_index = 0xD1 ∧
    (VirtualAddress.new 0x123456789000).get_pd_index = 0xB3 ∧
    (VirtualAddress.new 0x123456789000).get_pt_index = 0x189 ∧
    (VirtualAddress.new 0x123456789000).get_page_offset = 0x0 := by
  constructor
  · intro a
    refine ⟨?_, ?_, ?_, ?_, ?_⟩ <;>
      simp [VirtualAddress.new, VirtualAddress.get_pml4_index,
            VirtualAddress.get_pdpt_index, VirtualAddress.get_pd_index,
            VirtualAddress.get_pt_index, VirtualAddress.get_page_offset,
            shiftRight_and_1FF, and_FFF_mod]
  · exact ⟨by decide, by decide, by decide, by decide, by decide⟩

/-- C6: for every 64-bit raw page-table-entry value, at each of the four
levels the extracted physical address is the raw value masked with exactly
0x000F_FFFF_FFFF_F000 — i.e. bits 12 through 51 inclusive, discarding bits
0-11 and 52-63 — the presence test is bit 0, and the flags field is the low
12 bits. -/
theorem page_table_entry_field_extraction (v : Nat) :
    ((PML4Entry.new v).get_physical_address = v &&& 0x000FFFFFFFFFF000 ∧
     (PDPTEntry.new v).get_physical_address = v &&& 0x000FFFFFFFFFF000 ∧
     (PDEntry.new v).get_physical_address = v &&& 0x000FFFFFFFFFF000 ∧
     (PTEntry.new v).get_physical_address = v &&& 0x000FFFFFFFFFF000) ∧
    v &&& 0x000FFFFFFFFFF000 = v / 2 ^ 12 % 2 ^ 40 * 2 ^ 12 ∧
    ((PML4Entry.new v).is_present = true ↔ v % 2 = 1) ∧
    ((PDPTEntry.new v).is_present = true ↔ v % 2 = 1) ∧
    ((PDEntry.new v).is_present = true ↔ v % 2 = 1) ∧
    ((PTEntry.new v).is_present = true ↔ v % 2 = 1) ∧
    (PML4Entry.new v).flags = v % 2 ^ 12 ∧
    (PDPTEntry.new v).flags = v % 2 ^ 12 ∧
    (PDEntry.new v).flags = v % 2 ^ 12 ∧
    (PTEntry.new v).flags = v % 2 ^ 12 :=
  ⟨⟨rfl, rfl, rfl, rfl⟩, and_phys_mask v,
   is_present_iff_mod v, is_present_iff_mod v, is_present_iff_mod v,
   is_present_iff_mod v,
   and_FFF_mod v, and_FFF_mod v, and_FFF_mod v, and_FFF_mod v⟩

/-- C8: `set_cr3` mutates only the translation-context fields: the byte
buffer, size, architecture tag and page-table-layout tag are unchanged, and
the given root value is recorded (as both cr3 and dtb) without any
validation against the buffer. -/
theorem set_cr3_frame (img : MemoryImage) (v : Nat) :
    (img.set_cr3 v).data = img.data ∧
    (img.set_cr3 v).info.size = img.info.size ∧
    (img.set_cr3 v).info.arch = img.info.arch ∧
    (img.set_cr3 v).info.page_table_type = img.info.page_table_type ∧
    (img.set_cr3 v).info.cr3 = some v ∧
    (img.set_cr3 v).info.dtb = some v :=
  ⟨rfl, rfl, rfl, rfl, rfl, rfl⟩

/-- The states of a `MemoryImage` reachable by its constructors and mutators:
`new` builds it from a mapped buffer, and `set_cr3` is the only mutation. -/
inductive MemoryImage.Reachable : MemoryImage → Prop where
  | new (data : List Nat) : MemoryImage.Reachable (MemoryImage.new data)
  | set_cr3 (img : MemoryImage) (v : Nat) :
      MemoryImage.Reachable img → MemoryImage.Reachable (img.set_cr3 v)

/-- C9: in every reachable image state the `cr3` and `dtb` fields are equal —
both absent after construction, and every update sets both to the same
value. -/
theorem cr3_dtb_invariant (img : MemoryImage) (h : MemoryImage.Reachable img) :
    img.info.cr3 = img.info.dtb := by
  induction h with
  | new d => rfl
  | set_cr3 i v hi ih => rfl

/-- Witness for C9: the invariant instantiated at a freshly constructed image
with a page-table root then installed. -/
theorem cr3_dtb_invariant_witness :
    MemoryImage.Reachable ((MemoryImage.new [7]).set_cr3 4096) ∧
    ((MemoryImage.new [7]).set_cr3 4096).info.cr3 =
      ((MemoryImage.new [7]).set_cr3 4096).info.dtb :=
  ⟨MemoryImage.Reachable.set_cr3 _ 4096 (MemoryImage.Reachable.new [7]),
   cr3_dtb_invariant _
     (MemoryImage.Reachable.set_cr3 _ 4096 (MemoryImage.Reachable.new [7]))⟩

/-- C1: for `o + n ≤ size`, `get_bytes o n` returns a slice of exactly `n`
bytes equal to the corresponding bytes of the backing buffer; for
`o + n > size` it returns nothing.  The hypothesis records the construction
invariant that `size` is the length of the mapped buffer. -/
theorem get_bytes_spec (img : MemoryImage) (o n : Nat)
    (h : img.info.size = img.data.length) :
    (o + n ≤ img.info.size →
      ∃ s, img.get_bytes o n = some s ∧ s.length = n ∧
        ∀ i, i < n → s[i]? = img.data[o + i]?) ∧
    (img.info.size < o + n → img.get_bytes o n = none) := by
  constructor
  · intro hle
    refine ⟨(img.data.drop o).take n, ?_, ?_, ?_⟩
    · unfold MemoryImage.get_bytes
      rw [if_pos hle]
    · rw [List.length_take, List.length_drop]
      omega
    · intro i hi
      rw [List.getElem?_take, if_pos hi, List.getElem?_drop]
  · intro hlt
    unfold MemoryImage.get_bytes
    rw [if_neg (by omega)]

/-- Witness for C1 on a three-byte image: an in-range and an out-of-range
request. -/
theorem get_bytes_spec_witness :
    (MemoryImage.new [7, 8, 9]).info.size = (MemoryImage.new [7, 8, 9]).data.length ∧
    ((1 + 2 ≤ (MemoryImage.new [7, 8, 9]).info.size →
        ∃ s, (MemoryImage.new [7, 8, 9]).get_bytes 1 2 = some s ∧ s.length = 2 ∧
          ∀ i, i < 2 → s[i]? = (MemoryImage.new [7, 8, 9]).data[1 + i]?) ∧
      ((MemoryImage.new [7, 8, 9]).info.size < 1 + 2 →
        (MemoryImage.new [7, 8, 9]).get_bytes 1 2 = none)) :=
  ⟨by decide, get_bytes_spec (MemoryImage.new [7, 8, 9]) 1 2 (by decide)⟩

/-- C10: `read_utf16_string` returns nothing whenever fewer than two bytes
remain before the end of the buffer, even when the offset itself is in
bounds; and for an in-range offset whose first little-endian 16-bit code
unit is zero it returns the empty string rather than nothing. -/
theorem read_utf16_string_edge (img : MemoryImage) (offset max_len : Nat) :
    (offset + 1 ≥ img.info.size → img.read_utf16_string offset max_len = none) ∧
    (offset + 1 < img.info.size →
      img.byteAt offset + 256 * img.byteAt (offset + 1) = 0 →
      img.read_utf16_string offset max_len = some (String.mk [])) := by
  constructor
  · intro h
    unfold MemoryImage.read_utf16_string
    rw [if_pos h]
  · intro h hc
    unfold MemoryImage.read_utf16_string
    rw [if_neg (by omega)]
    have hu : utf16Units img offset (max_len / 2) = [] := by
      cases hm : max_len / 2 with
      | zero => rfl
      | succ k =>
        unfold utf16Units
        rw [if_neg (by omega)]
        simp [hc]
    rw [hu]
    rfl

/-- A three-byte image whose first UTF-16 code unit is zero. -/
def imgU : MemoryImage := MemoryImage.new [0, 0, 5]

/-- Witness for C10: at offset 2 only one byte remains, so the read is
nothing; at offset 0 the first code unit is zero, so the read is the empty
string. -/
theorem read_utf16_string_edge_witness :
    imgU.read_utf16_string 2 8 = none ∧
    imgU.read_utf16_string 0 8 = some (String.mk []) :=
  ⟨(read_utf16_string_edge imgU 2 8).1 (by decide),
   (read_utf16_string_edge imgU 0 8).2 (by decide) (by decide)⟩

/-- C7: registering two plugins with distinct names lists both with their
description and version; registering under a name already in use replaces
the earlier plugin (last registration wins, and the enumeration keeps a
single entry for the name); `get` on an unregistered name returns nothing. -/
theorem plugin_registry_spec (p q p2 : MemoryPlugin) (s : String)
    (hpq : p.name ≠ q.name) (hrep : p2.name = p.name)
    (hs1 : s ≠ p.name) (hs2 : s ≠ q.name) :
    ((p.name, p.description, p.get_version) ∈
        ((PluginRegistry.new.register p).register q).list_plugins ∧
     (q.name, q.description, q.get_version) ∈
        ((PluginRegistry.new.register p).register q).list_plugins ∧
     ((PluginRegistry.new.register p).register q).get s = none) ∧
    (((PluginRegistry.new.register p).register p2).get p.name = some p2 ∧
     ((PluginRegistry.new.register p).register p2).list_plugins =
       [(p2.name, p2.description, p2.get_version)]) := by
  refine ⟨⟨?_, ?_, ?_⟩, ?_, ?_⟩ <;>
    simp [PluginRegistry.new, PluginRegistry.register, PluginRegistry.get,
          PluginRegistry.list_plugins, hpq, hrep, Ne.symm hs1, Ne.symm hs2]

def pluginA : MemoryPlugin := ⟨r"alpha", r"first scanner", r"1.0.0", fun _ => []⟩

def pluginB : MemoryPlugin := ⟨r"beta", r"second scanner", r"2.1.0", fun _ => []⟩

def pluginA2 : MemoryPlugin := ⟨r"alpha", r"replacement scanner", r"3.0.0", fun _ => []⟩

/-- Witness for C7: a re-registration under the name alpha is returned by
`get`, and a name never registered yields nothing. -/
theorem plugin_registry_spec_witness :
    ((PluginRegistry.new.register pluginA).register pluginA2).get pluginA.name =
      some pluginA2 ∧
    ((PluginRegistry.new.register pluginA).register pluginB).get (r"gamma") = none :=
  ⟨(plugin_registry_spec pluginA pluginB pluginA2 (r"gamma")
      (by decide) (by decide) (by decide) (by decide)).2.1,
   (plugin_registry_spec pluginA pluginB pluginA2 (r"gamma")
      (by decide) (by decide) (by decide) (by decide)).1.2.2⟩

/-- C4: a present level-2 entry with the large-page bit set short-circuits
the walk: the result is its masked physical base plus the low 21 bits of the
virtual address, with no hypothesis about any level-1 table — an absent or
unreadable level-1 table cannot make this translation fail. -/
theorem virt_to_phys_2mb_shortcut (img : MemoryImage) (virt_addr dtb e1 e2 e3 : Nat)
    (hdtb : img.info.dtb = some dtb)
    (h1 : img.read_u64 ((dtb + (VirtualAddress.new virt_addr).get_pml4_index * 8) % 2 ^ 64)
           = some e1)
    (hp1 : (PML4Entry.new e1).is_present = true)
    (h2 : img.read_u64 ((PML4Entry.new e1).get_physical_address
            + (VirtualAddress.new virt_addr).get_pdpt_index * 8) = some e2)
    (hp2 : (PDPTEntry.new e2).is_present = true)
    (hgb : (PDPTEntry.new e2).is_page_size_1gb = false)
    (h3 : img.read_u64 ((PDPTEntry.new e2).get_physical_address
            + (VirtualAddress.new virt_addr).get_pd_index * 8) = some e3)
    (hp3 : (PDEntry.new e3).is_present = true)
    (h2mb : (PDEntry.new e3).is_page_size_2mb = true) :
    img.virt_to_phys virt_addr
      = some ((PDEntry.new e3).get_physical_address + (virt_addr &&& 0x1FFFFF)) := by
  unfold MemoryImage.virt_to_phys
  rw [hdtb]
  simp only [h1, hp1, h2, hp2, hgb, h3, hp3, h2mb, if_true, if_false]
  rfl

/-- A 16-byte image whose single page table maps everything through one
2 MiB large-page entry; any level-1 read would be out of bounds. -/
def img2mb : MemoryImage :=
  (MemoryImage.new [1, 0, 0, 0, 0, 0, 0, 0, 129, 0, 0, 0, 0, 0, 0, 0]).set_cr3 0

/-- Witness for C4: translating 0x200000 through the 2 MiB entry of `img2mb`
succeeds even though the image is far too small to hold any level-1 table. -/
theorem virt_to_phys_2mb_shortcut_witness :
    img2mb.info.dtb = some 0 ∧
    img2mb.virt_to_phys 0x200000
      = some ((PDEntry.new 129).get_physical_address + (0x200000 &&& 0x1FFFFF)) :=
  ⟨by decide,
   virt_to_phys_2mb_shortcut img2mb 0x200000 0 1 1 129
     (by decide) (by decide) (by decide) (by decide) (by decide) (by decide)
     (by decide) (by decide) (by decide)⟩

/-- C5: when translation succeeds through a 4 KiB leaf — the full level-1
walk, not a large-page short-circuit — the result is the leaf entry's masked
base plus the page offset, and its low 12 bits equal the low 12 bits of the
virtual address. -/
theorem virt_to_phys_4kb_offset (img : MemoryImage) (virt_addr dtb e1 e2 e3 e4 : Nat)
    (hdtb : img.info.dtb = some dtb)
    (h1 : img.read_u64 ((dtb + (VirtualAddress.new virt_addr).get_pml4_index * 8) % 2 ^ 64)
           = some e1)
    (hp1 : (PML4Entry.new e1).is_present = true)
    (h2 : img.read_u64 ((PML4Entry.new e1).get_physical_address
            + (VirtualAddress.new virt_addr).get_pdpt_index * 8) = some e2)
    (hp2 : (PDPTEntry.new e2).is_present = true)
    (hgb : (PDPTEntry.new e2).is_page_size_1gb = false)
    (h3 : img.read_u64 ((PDPTEntry.new e2).get_physical_address
            + (VirtualAddress.new virt_addr).get_pd_index * 8) = some e3)
    (hp3 : (PDEntry.new e3).is_present = true)
    (h2mb : (PDEntry.new e3).is_page_size_2mb = false)
    (h4 : img.read_u64 ((PDEntry.new e3).get_physical_address
            + (VirtualAddress.new virt_addr).get_pt_index * 8) = some e4)
    (hp4 : (PTEntry.new e4).is_present = true) :
    img.virt_to_phys virt_addr
      = some ((PTEntry.new e4).get_physical_address
                + (VirtualAddress.new virt_addr).get_page_offset) ∧
    ((PTEntry.new e4).get_physical_address
        + (VirtualAddress.new virt_addr).get_page_offset) % 2 ^ 12
      = virt_addr % 2 ^ 12 := by
  constructor
  · unfold MemoryImage.virt_to_phys
    rw [hdtb]
    simp only [h1, hp1, h2, hp2, hgb, h3, hp3, h2mb, h4, hp4]
    rfl
  · simp only [PTEntry.get_physical_address, PTEntry.new,
               VirtualAddress.get_page_offset, VirtualAddress.new]
    rw [and_phys_mask, and_FFF_mod]
    omega

/-- An 8-byte image whose single self-referencing table entry is a present
pointer at every level, giving a 4 KiB leaf at physical base 0. -/
def img4kb : MemoryImage :=
  (MemoryImage.new [1, 0, 0, 0, 0, 0, 0, 0]).set_cr3 0

/-- Witness for C5: the virtual address 0x123 translates through the 4 KiB
leaf of `img4kb` and the page offset 0x123 is preserved verbatim. -/
theorem virt_to_phys_4kb_offset_witness :
    img4kb.virt_to_phys 0x123
      = some ((PTEntry.new 1).get_physical_address
                + (VirtualAddress.new 0x123).get_page_offset) ∧
    ((PTEntry.new 1).get_physical_address
        + (VirtualAddress.new 0x123).get_page_offset) % 2 ^ 12 = 0x123 % 2 ^ 12 :=
  virt_to_phys_4kb_offset img4kb 0x123 0 1 1 1 1
    (by decide) (by decide) (by decide) (by decide) (by decide) (by decide)
    (by decide) (by decide) (by decide) (by decide) (by decide)

/-- The translation walk succeeds: a page-table root is configured and, at
every level the walk actually reaches, the 8-byte entry read is in bounds
and the entry is present (a set large-page bit at level 3 or 2 ends the walk
early, so deeper levels are not reached).  Its negation is exactly: no root,
or an out-of-bounds entry read at a reached level, or a clear presence bit
at a reached level. -/
def WalkSucceeds (img : MemoryImage) (virt_addr : Nat) : Prop :=
  ∃ dtb, img.info.dtb = some dtb ∧
    ∃ e1, img.read_u64 ((dtb + (VirtualAddress.new virt_addr).get_pml4_index * 8) % 2 ^ 64)
            = some e1 ∧
      (PML4Entry.new e1).is_present = true ∧
      ∃ e2, img.read_u64 ((PML4Entry.new e1).get_physical_address
              + (VirtualAddress.new virt_addr).get_pdpt_index * 8) = some e2 ∧
        (PDPTEntry.new e2).is_present = true ∧
        ((PDPTEntry.new e2).is_page_size_1gb = true ∨
          ∃ e3, img.read_u64 ((PDPTEntry.new e2).get_physical_address
                  + (VirtualAddress.new virt_addr).get_pd_index * 8) = some e3 ∧
            (PDEntry.new e3).is_present = true ∧
            ((PDEntry.new e3).is_page_size_2mb = true ∨
              ∃ e4, img.read_u64 ((PDEntry.new e3).get_physical_address
                      + (VirtualAddress.new virt_addr).get_pt_index * 8) = some e4 ∧
                (PTEntry.new e4).is_present = true))

/-- C3: for every image and virtual address, `virt_to_phys` returns an absent
value exactly when no page-table root is configured, or an entry read at a
reached walk level is out of the image bounds, or an entry at a reached
level has its presence bit clear; in every other case it returns a physical
address. -/
theorem virt_to_phys_none_iff (img : MemoryImage) (virt_addr : Nat) :
    img.virt_to_phys virt_addr = none ↔ ¬ WalkSucceeds img virt_addr := by
  rw [iff_not_comm]
  unfold MemoryImage.virt_to_phys WalkSucceeds
  cases hdtb : img.info.dtb with
  | none => simp
  | some dtb =>
    simp only [Option.some.injEq, exists_eq_left']
    cases h1 : img.read_u64 ((dtb + (VirtualAddress.new virt_addr).get_pml4_index * 8) % 2 ^ 64) with
    | none => simp
    | some e1 =>
      simp only [Option.some.injEq, exists_eq_left']
      cases hp1 : (PML4Entry.new e1).is_present with
      | false => simp
      | true =>
        rw [if_pos rfl]
        simp only [eq_self_iff_true, true_and]
        cases h2 : img.read_u64 ((PML4Entry.new e1).get_physical_address + (VirtualAddress.new virt_addr).get_pdpt_index * 8) with
        | none => simp
        | some e2 =>
          simp only [Option.some.injEq, exists_eq_left']
          cases hp2 : (PDPTEntry.new e2).is_present with
          | false => simp
          | true =>
            rw [if_pos rfl]
            simp only [eq_self_iff_true, true_and]
            cases hgb : (PDPTEntry.new e2).is_page_size_1gb with
            | true =>
              rw [if_pos rfl]
              simp
            | false =>
              rw [if_neg Bool.false_ne_true]
              simp only [Bool.false_eq_true, false_or]
              cases h3 : img.read_u64 ((PDPTEntry.new e2).get_physical_address + (VirtualAddress.new virt_addr).get_pd_index * 8) with
              | none => simp
              | some e3 =>
                simp only [Option.some.injEq, exists_eq_left']
                cases hp3 : (PDEntry.new e3).is_present with
                | false => simp
                | true =>
                  rw [if_pos rfl]
                  simp only [eq_self_iff_true, true_and]
                  cases h2mb : (PDEntry.new e3).is_page_size_2mb with
                  | true =>
                    rw [if_pos rfl]
                    simp
                  | false =>
                    rw [if_neg Bool.false_ne_true]
                    simp only [Bool.false_eq_true, false_or]
                    cases h4 : img.read_u64 ((PDEntry.new e3).get_physical_address + (VirtualAddress.new virt_addr).get_pt_index * 8) with
                    | none => simp
                    | some e4 =>
                      simp only [Option.some.injEq, exists_eq_left']
                      cases hp4 : (PTEntry.new e4).is_present with
                      | false => simp
                      | true =>
                        rw [if_pos rfl]
                        simp
